import Mathlib

/-!
Shallow embedding of the `carlo` gas-sensor Monte Carlo simulator
(`src/carlo/simulation.py`, `src/carlo/distribution.py`,
`src/carlo/environment.py`, `src/carlo/nanofiber.py`,
`src/carlo/postprocessing.py`).

Floating-point values are modelled as exact field elements: the discrete
update algebra (`simulation.py`, `postprocessing.py`) is stated over an
arbitrary linear ordered field so it can be instantiated at `ℚ` for
executable witnesses and at `ℝ` where the velocity-distribution pipeline
(which uses `exp`, `sqrt`, `π` and fractional powers) feeds into it.
Randomness is modelled by passing the underlying uniform draws (numpy's
`random.rand` / `random.choice` uniforms) explicitly; `np.random.choice`
over a weight vector is modelled by its inverse-CDF selection rule.
-/

namespace Carlo

/-! ## Simulation state (`GasSensorSimulation` attributes)

`state_mtx` is the `n_y × n_x` boolean activity grid, `time_mtx` the
cumulative exposure-time grid, `iterations` the loop counter
(`simulation.py` lines 50-52). -/

structure SimState (α : Type) (ny nx : ℕ) where
  state_mtx : Fin ny → Fin nx → Bool
  time_mtx : Fin ny → Fin nx → α
  iterations : ℕ

/-- The state installed by `GasSensorSimulation.__init__`: all cells
active, zero accumulated time, zero iterations. -/
def initialState (α : Type) [LinearOrderedField α] (ny nx : ℕ) : SimState α ny nx :=
  { state_mtx := fun _ _ => true
    time_mtx := fun _ _ => 0
    iterations := 0 }

/-- The random draws consumed by one iteration of `run`: the per-cell
species label (`mixture_mtx`, `True` = passive), the per-cell speed
sampled from the active and passive velocity distributions, and the
per-cell uniform distance factor (`np.random.rand`). -/
structure IterDraws (α : Type) (ny nx : ℕ) where
  mixture : Fin ny → Fin nx → Bool
  vActive : Fin ny → Fin nx → α
  vPassive : Fin ny → Fin nx → α
  randDist : Fin ny → Fin nx → α

variable {α : Type} [LinearOrderedField α] {ny nx : ℕ}

/-- Per-cell speed choice `v_mtx = np.where(mixture_mtx == 0, v_active_mtx,
v_passive_mtx)` (`update_time_mtx`): the active-species speed where the
mixture marks the cell active-exposed (`False`), else the passive speed. -/
def v_mtx (d : IterDraws α ny nx) (i : Fin ny) (j : Fin nx) : α :=
  if d.mixture i j = false then d.vActive i j else d.vPassive i j

/-- Per-cell travel distance `np.random.rand(...) * max_distance`. -/
def distance_mtx (max_distance : α) (d : IterDraws α ny nx) (i : Fin ny) (j : Fin nx) : α :=
  d.randDist i j * max_distance

/-- Booleans as numbers, as numpy does when multiplying a float matrix by a
boolean matrix. -/
def boolToNum (α : Type) [LinearOrderedField α] (b : Bool) : α :=
  if b then 1 else 0

/-- One iteration of the `run` loop body (`simulation.py` lines 113-116):
mask `state_mtx` by `mixture_mtx`, then `update_time_mtx` adds
`(distance_mtx / v_mtx) * state_mtx` gated on the post-mask state, then
`iterations` is incremented. -/
def stepSim (max_distance : α) (σ : SimState α ny nx) (d : IterDraws α ny nx) :
    SimState α ny nx :=
  let state' : Fin ny → Fin nx → Bool := fun i j => σ.state_mtx i j && d.mixture i j
  { state_mtx := state'
    time_mtx := fun i j =>
      σ.time_mtx i j + distance_mtx max_distance d i j / v_mtx d i j * boolToNum α (state' i j)
    iterations := σ.iterations + 1 }

/-- Number of `True` entries of `state_mtx` (`self.state_mtx.sum()`). -/
def countActive (s : Fin ny → Fin nx → Bool) : ℕ :=
  (Finset.univ.filter (fun c : Fin ny × Fin nx => s c.1 c.2 = true)).card

/-- `active_cell_ratio`: active cells over `n_x * n_y` (`simulation.py`
lines 100-105). -/
def active_cell_ratio (σ : SimState α ny nx) : α :=
  (countActive σ.state_mtx : α) / ((nx : α) * (ny : α))

/-- `is_converged`: `active_cell_ratio < active_cell_ratio_to_converge`. -/
def is_converged (σ : SimState α ny nx) (threshold : α) : Prop :=
  active_cell_ratio σ < threshold

instance (σ : SimState α ny nx) (threshold : α) : Decidable (is_converged σ threshold) := by
  unfold is_converged; infer_instance

/-- One cell of `get_mixture_mtx`: `np.random.choice([True, False],
p=(1 - concentration, concentration))`.  numpy selects by inverting the
CDF `(1 - c, 1)` at a uniform `u ∈ [0, 1)`: `True` (passive) when
`u < 1 - c`, else `False` (active-exposed). -/
def mixture_cell (concentration : α) (u : α) : Bool :=
  decide (u < 1 - concentration)

/-- `get_mixture_mtx` (`simulation.py` lines 76-79): one independent
species draw per grid cell, from the per-cell uniforms `us`. -/
def get_mixture_mtx (concentration : α) (us : Fin ny → Fin nx → α) :
    Fin ny → Fin nx → Bool :=
  fun i j => mixture_cell concentration (us i j)

/-- The `run` loop (`simulation.py` lines 110-124), with explicit fuel:
while `active_cell_ratio` has not dropped below the threshold, perform one
`stepSim` with the next block of random draws (indexed by the iteration
counter).  `none` models the run still looping after `fuel` iterations
(the source has no iteration cap). -/
def runSim (max_distance : α) (draws : ℕ → IterDraws α ny nx) (threshold : α) :
    ℕ → SimState α ny nx → Option (SimState α ny nx)
  | 0, σ => if is_converged σ threshold then some σ else none
  | fuel + 1, σ =>
    if is_converged σ threshold then some σ
    else runSim max_distance draws threshold fuel (stepSim max_distance σ (draws σ.iterations))

/-! ## Velocity distribution (`distribution.py`)

The Maxwell-Boltzmann pipeline uses `π`, `exp`, `sqrt` and fractional
powers, so it is embedded over `ℝ`. -/

noncomputable section

/-- Boltzmann constant (`distribution.py` line 6). -/
def K_B : ℝ := 1.380649e-23

/-- Universal gas constant `R = 8.314`. -/
def R_const : ℝ := 8.314

/-- Avogadro's number `NA = 6.0221409e23`. -/
def NA : ℝ := 6.0221409e23

/-- `get_maxwell_boltzmann_velocity_distribution(v, temperature,
molecule_mass)`: `4π v² (m/(2π k_B T))^1.5 exp(−m v²/(2 k_B T))`. -/
def get_maxwell_boltzmann_velocity_distribution (v temperature molecule_mass : ℝ) : ℝ :=
  let expr1 := 4 * Real.pi * v ^ 2
  let expr2 := (molecule_mass / (2 * Real.pi * K_B * temperature)) ^ (1.5 : ℝ)
  let expr3 := Real.exp ((-molecule_mass * v ^ 2) / (2 * K_B * temperature))
  expr1 * expr2 * expr3

/-- `mean = np.sqrt((2 * R * temperature) / molar_mass)` in
`get_sample_maxwell_boltzmann_velocity_distribution`. -/
def mean_speed (temperature molar_mass : ℝ) : ℝ :=
  Real.sqrt ((2 * R_const * temperature) / molar_mass)

/-- Row 0 of the sampling table: `np.linspace(0, 3 * mean, 100)`, whose
`i`-th point is `i * (3 * mean) / 99`. -/
def dist_speed (temperature molar_mass : ℝ) (i : Fin 100) : ℝ :=
  (i : ℝ) * (3 * mean_speed temperature molar_mass) / 99

/-- The unnormalized density row: the Maxwell-Boltzmann density evaluated
at each speed sample, with molecule mass `molar_mass / NA`. -/
def dist_density (temperature molar_mass : ℝ) (i : Fin 100) : ℝ :=
  get_maxwell_boltzmann_velocity_distribution (dist_speed temperature molar_mass i)
    temperature (molar_mass / NA)

/-- Row 1 of the sampling table after normalization:
`(1 / distribution[1, :].sum()) * distribution[1, :]`. -/
def dist_weight (temperature molar_mass : ℝ) (i : Fin 100) : ℝ :=
  (1 / ∑ j, dist_density temperature molar_mass j) * dist_density temperature molar_mass i

/-- The selection rule of `np.random.choice(values, p=w)` at uniform draw
`u`: numpy picks the index `i` whose CDF cell contains `u`, i.e. the sum
of the weights before `i` is `≤ u` and the sum through `i` exceeds `u`. -/
def choiceSelects (w : Fin 100 → ℝ) (u : ℝ) (i : Fin 100) : Prop :=
  (∑ j ∈ Finset.univ.filter (fun j => j < i), w j) ≤ u ∧
    u < ∑ j ∈ Finset.univ.filter (fun j => j ≤ i), w j

/-! ## Environment and NanoFiber (`environment.py`, `nanofiber.py`) -/

/-- A material record: name, (solid-state) density, molar weight
(`materials.py`). -/
structure Material where
  name : String
  density : ℝ
  molweight : ℝ

/-- Python float division `num / den`, which raises `ZeroDivisionError`
(modelled as `none`) exactly when the denominator is zero. -/
def pyDiv (num den : ℝ) : Option ℝ :=
  if den = 0 then none else some (num / den)

/-- Python float floor division `num // den`, which raises
`ZeroDivisionError` (modelled as `none`) exactly when the denominator is
zero, and otherwise floors the quotient. -/
def pyFloorDiv (num den : ℝ) : Option ℝ :=
  if den = 0 then none else some (⌊num / den⌋ : ℝ)

/-- `get_molecular_diameter` (`utils.py`): closest-packing diameter
`(6 · particle_volume / π)^(1/3)` with
`particle_volume = 1 / (density / molweight · NA)`.  Both divisions are
Python float divisions, so a zero `molweight` or a zero particle count
raises; the final division by `π` cannot raise. -/
def get_molecular_diameter (solid_state_density molweight : ℝ) : Option ℝ :=
  (pyDiv solid_state_density molweight).bind fun n_mol =>
    (pyDiv 1 (n_mol * NA)).map fun particle_volume =>
      ((6 * particle_volume) / Real.pi) ^ ((1 : ℝ) / 3)

/-- `get_passive_gas_quantity` (`environment.py`): ideal gas law
`NA · P · V / (R · T)`, a Python float division that raises when
`R · T = 0`. -/
def get_passive_gas_quantity (pressure temperature volume : ℝ) : Option ℝ :=
  pyDiv (NA * pressure * volume) (R_const * temperature)

/-- The attributes installed by `Environment.__init__`. -/
structure Environment where
  concentration : ℝ
  temperature : ℝ
  pressure : ℝ
  max_distance : ℝ
  active_gas : Material
  passive_gas : Material
  active_gas_molweight : ℝ
  passive_gas_molweight : ℝ
  active_gas_diameter : ℝ
  passive_gas_diameter : ℝ
  container_volume : ℝ
  passive_gas_quantity : ℝ
  active_gas_quantity : ℝ

/-- `Environment.__init__` (`environment.py` lines 20-50): stores the
inputs and computes the derived diameters and gas quantities, in source
order (active diameter, passive diameter, passive quantity); no range or
positivity validation is performed — the only failure mode is a
`ZeroDivisionError` from one of the derived-quantity divisions. -/
def mkEnvironment (temperature pressure container_volume concentration max_distance : ℝ)
    (active_gas passive_gas : Material) : Option Environment :=
  (get_molecular_diameter active_gas.density active_gas.molweight).bind
    fun active_gas_diameter =>
  (get_molecular_diameter passive_gas.density passive_gas.molweight).bind
    fun passive_gas_diameter =>
  (get_passive_gas_quantity pressure temperature container_volume).map
    fun passive_gas_quantity =>
  { concentration := concentration
    temperature := temperature
    pressure := pressure
    max_distance := max_distance
    active_gas := active_gas
    passive_gas := passive_gas
    active_gas_molweight := active_gas.molweight
    passive_gas_molweight := passive_gas.molweight
    active_gas_diameter := active_gas_diameter
    passive_gas_diameter := passive_gas_diameter
    container_volume := container_volume
    passive_gas_quantity := passive_gas_quantity
    active_gas_quantity := passive_gas_quantity * concentration }

/-- `get_surface_carrier_density` (`nanofiber.py`): `1 / (π · d² / 4)`
with `d` the material's molecular diameter; the `1 / area` step is a
Python float division that raises when the area is zero. -/
def get_surface_carrier_density (material : Material) : Option ℝ :=
  (get_molecular_diameter material.density material.molweight).bind fun diameter =>
    pyDiv 1 (Real.pi * diameter ^ 2 / 4)

/-- `get_cell_carriers` (`nanofiber.py`): Python floor division
`surface_carrier_density · width · length // (n_x · n_y)`, which raises
when `n_x · n_y = 0`. -/
def get_cell_carriers (width length surface_carrier_density : ℝ) (n_y n_x : ℕ) : Option ℝ :=
  pyFloorDiv (surface_carrier_density * (width * length)) ((n_x : ℝ) * (n_y : ℝ))

/-- The attributes installed by `NanoFiber.__init__`. -/
structure NanoFiber where
  width : ℝ
  length : ℝ
  n_x : ℕ
  n_y : ℕ
  material : Material
  surface_carrier_density : ℝ
  cell_carriers : ℝ
  carriers_quantity : ℝ

/-- `NanoFiber.__init__` (`nanofiber.py` lines 31-52): stores the inputs
and computes carrier density and counts, in source order; no range or
positivity validation is performed — the only failure mode is a
`ZeroDivisionError` from one of the derived-quantity divisions. -/
def mkNanoFiber (width length : ℝ) (n_x n_y : ℕ) (material : Material) : Option NanoFiber :=
  (get_surface_carrier_density material).bind fun surface_carrier_density =>
  (get_cell_carriers width length surface_carrier_density n_y n_x).map fun cell_carriers =>
  { width := width
    length := length
    n_x := n_x
    n_y := n_y
    material := material
    surface_carrier_density := surface_carrier_density
    cell_carriers := cell_carriers
    carriers_quantity := width * length * surface_carrier_density }

/-! ## GasSensorSimulation construction (`simulation.py`) -/

/-- The error raised when `active_gas_quantity / carriers_quantity < 1`. -/
def shortageMessage : String := "Active gas shortage. Check input parameters."

open Classical in
/-- `GasSensorSimulation.__init__` after the `NanoFiber`/`Environment`
construction (`simulation.py` lines 50-65): installs the all-active
zero-time state with `iterations = 0`, then raises the active-gas-shortage
error when `active_gas_quantity / carriers_quantity < 1`.  No other error
path exists in the constructor. -/
def initGasSensorSimulation (env : Environment) (fiber : NanoFiber) :
    Except String (SimState ℝ fiber.n_y fiber.n_x) :=
  if env.active_gas_quantity / fiber.carriers_quantity < 1 then
    Except.error shortageMessage
  else
    Except.ok (initialState ℝ fiber.n_y fiber.n_x)

/-- `SimulationSetup` (`simulation.py` lines 16-28). -/
structure SimulationSetup where
  nano_fiber_width : ℝ
  nano_fiber_length : ℝ
  n_x : ℕ
  n_y : ℕ
  nano_fiber_material : Material
  temperature : ℝ
  pressure : ℝ
  container_volume : ℝ
  concentration : ℝ
  max_distance : ℝ
  active_gas : Material
  passive_gas : Material

open Classical in
/-- The full `GasSensorSimulation.__init__(setup)`: builds the nanofiber,
then the environment, from the setup (propagating any
`ZeroDivisionError`), then performs the shortage check on the installed
initial state. -/
def initFromSetup (s : SimulationSetup) :
    Option (Except String (SimState ℝ s.n_y s.n_x)) :=
  (mkNanoFiber s.nano_fiber_width s.nano_fiber_length s.n_x s.n_y
      s.nano_fiber_material).bind fun fiber =>
  (mkEnvironment s.temperature s.pressure s.container_volume s.concentration
      s.max_distance s.active_gas s.passive_gas).map fun env =>
    if env.active_gas_quantity / fiber.carriers_quantity < 1 then
      Except.error shortageMessage
    else
      Except.ok (initialState ℝ s.n_y s.n_x)

/-- `GasSensorSimulation.maximum_current`: `carriers_quantity * 1.6021e-19`. -/
def maximum_current (fiber : NanoFiber) : ℝ :=
  fiber.carriers_quantity * 1.6021e-19

end

/-! ## PostProcess (`postprocessing.py`)

The post-processing arithmetic is polymorphic over the field so that its
claims have executable `ℚ` instances. -/

/-- The elementary charge `Q_E = 1.6021e-19` as used in
`get_current_from_state`, written as the exact rational `16021 / 10^23`. -/
def Q_E (α : Type) [LinearOrderedField α] : α := 16021 / 10 ^ 23

/-- `np.unique(time_mtx.flatten())`: the distinct values of `time_mtx`
sorted ascending. -/
def distinctTimes (time : Fin ny → Fin nx → α) : List α :=
  ((Finset.univ : Finset (Fin ny × Fin nx)).image (fun c => time c.1 c.2)).sort (· ≤ ·)

/-- The snapshot `np.where(time_mtx <= t, state_mtx, 1)` of
`get_state_generator`: a cell shows its final state once its recorded time
is `≤ t`, and counts as still active (`1` = `True`) otherwise. -/
def step_state (time : Fin ny → Fin nx → α) (state : Fin ny → Fin nx → Bool) (t : α) :
    Fin ny → Fin nx → Bool :=
  fun i j => if time i j ≤ t then state i j else true

/-- `get_current_from_state`: `n_e = n_y * n_x - state.sum()`, then
`current = n_e * Q_E * cell_carriers`. -/
def get_current_from_state (cell_carriers : α) (state : Fin ny → Fin nx → Bool) : α :=
  let n_e := ((ny : α) * (nx : α)) - (countActive state : α)
  n_e * Q_E α * cell_carriers

/-- `get_time_current_array`: the list of `(t, I(t))` pairs over the
distinct recorded times, in ascending order. -/
def get_time_current_array (cell_carriers : α) (time : Fin ny → Fin nx → α)
    (state : Fin ny → Fin nx → Bool) : List (α × α) :=
  (distinctTimes time).map fun t =>
    (t, get_current_from_state cell_carriers (step_state time state t))

noncomputable section

/-- `CurrentEstimator.calculate_b`: take the last column `(t, i)` of the
time/current array and return `(-1/t) * log((a - i) / a)`; indexing an
empty array faults, modelled as `none`. -/
def calculate_b (a : ℝ) (time_current_array : List (ℝ × ℝ)) : Option ℝ :=
  time_current_array.getLast?.map fun ti => (-1 / ti.1) * Real.log ((a - ti.2) / a)

/-- The two parameters a `CurrentEstimator` instance stores. -/
structure CurrentEstimator where
  a : ℝ
  b : ℝ

/-- `CurrentEstimator.__init__`: `a` is the engine's `maximum_current`
and `b` comes from `calculate_b` on the post-processor's time/current
array. -/
def mkCurrentEstimator (fiber : NanoFiber) (time_current_array : List (ℝ × ℝ)) :
    Option CurrentEstimator :=
  (calculate_b (maximum_current fiber) time_current_array).map fun b =>
    ⟨maximum_current fiber, b⟩

/-- `CurrentEstimator.__call__`: `a * (1 - exp(-b * time))`. -/
def currentEstimatorApply (e : CurrentEstimator) (time : ℝ) : ℝ :=
  e.a * (1 - Real.exp (-e.b * time))

end

/-! ## Iteration traces

`simTrace` is the sequence of states produced by successive `run`-loop
bodies from a start state; since the loop indexes its draws by the
iteration counter and the engine starts at `iterations = 0`, the `n`-th
executed iteration consumes draw block `n`. -/

def simTrace (md : α) (draws : ℕ → IterDraws α ny nx) (σ0 : SimState α ny nx) :
    ℕ → SimState α ny nx
  | 0 => σ0
  | n + 1 => stepSim md (simTrace md draws σ0 n) (draws n)

/-! ## Concrete fixtures used by the witnesses -/

/-- A concrete 1×1 draw block (passive mixture, speeds 3 and 4, uniform
distance factor 1/2) used to evaluate the step lemmas. -/
def drawsW : IterDraws ℚ 1 1 :=
  { mixture := fun _ _ => true
    vActive := fun _ _ => 3
    vPassive := fun _ _ => 4
    randDist := fun _ _ => 1 / 2 }

/-- A concrete already-converged 1×1 state: its only cell is inactive. -/
def σConv : SimState ℚ 1 1 :=
  { state_mtx := fun _ _ => false
    time_mtx := fun _ _ => 0
    iterations := 0 }

/-- A concrete 1×1 `time_mtx` whose only entry is `5`. -/
def timeW : Fin 1 → Fin 1 → ℚ := fun _ _ => 5

/-- A concrete 1×1 `state_mtx` whose only cell is inactive. -/
def stateW : Fin 1 → Fin 1 → Bool := fun _ _ => false

noncomputable section

/-- A concrete material record. -/
def matW : Material := ⟨"test", 1, 1⟩

/-- A concrete `Environment` value with `active_gas_quantity = 5`. -/
def envW : Environment :=
  { concentration := 1 / 2
    temperature := 300
    pressure := 101325
    max_distance := 1
    active_gas := matW
    passive_gas := matW
    active_gas_molweight := 1
    passive_gas_molweight := 1
    active_gas_diameter := 1
    passive_gas_diameter := 1
    container_volume := 1
    passive_gas_quantity := 10
    active_gas_quantity := 5 }

/-- A concrete `NanoFiber` value with `carriers_quantity = 1`. -/
def fiberW : NanoFiber :=
  { width := 1
    length := 1
    n_x := 1
    n_y := 1
    material := matW
    surface_carrier_density := 1
    cell_carriers := 1
    carriers_quantity := 1 }

end

/-! ## Theorems about the iteration step and the run loop -/

/-- C1: in every iteration of `GasSensorSimulation.run`, the state matrix
is masked first (`state_mtx` becomes `state_mtx AND mixture_mtx`) and only
then is the per-cell transit time `distance / speed` added to `time_mtx`,
gated on the post-mask state: every cell whose entry is `false` after the
mask — including a cell deactivated in this very iteration — keeps its
`time_mtx` entry unchanged, while every cell still `true` after the mask
has its sampled transit time added; and the loop body of `run` is exactly
this step. -/
theorem C1_mask_then_gate_time_update (md : α) (σ : SimState α ny nx)
    (d : IterDraws α ny nx) (i : Fin ny) (j : Fin nx) :
    (stepSim md σ d).state_mtx i j = (σ.state_mtx i j && d.mixture i j) ∧
    ((stepSim md σ d).state_mtx i j = false →
      (stepSim md σ d).time_mtx i j = σ.time_mtx i j) ∧
    ((stepSim md σ d).state_mtx i j = true →
      (stepSim md σ d).time_mtx i j =
        σ.time_mtx i j + distance_mtx md d i j / v_mtx d i j) ∧
    (∀ (draws : ℕ → IterDraws α ny nx) (th : α) (fuel : ℕ),
      ¬ is_converged σ th →
        runSim md draws th (fuel + 1) σ =
          runSim md draws th fuel (stepSim md σ (draws σ.iterations))) := by
  refine ⟨rfl, ?_, ?_, ?_⟩
  · intro h
    have h' : (σ.state_mtx i j && d.mixture i j) = false := h
    show σ.time_mtx i j +
        distance_mtx md d i j / v_mtx d i j * boolToNum α (σ.state_mtx i j && d.mixture i j) =
      σ.time_mtx i j
    rw [h']
    simp [boolToNum]
  · intro h
    have h' : (σ.state_mtx i j && d.mixture i j) = true := h
    show σ.time_mtx i j +
        distance_mtx md d i j / v_mtx d i j * boolToNum α (σ.state_mtx i j && d.mixture i j) =
      σ.time_mtx i j + distance_mtx md d i j / v_mtx d i j
    rw [h']
    simp [boolToNum]
  · intro draws th fuel h
    show (if is_converged σ th then some σ
        else runSim md draws th fuel (stepSim md σ (draws σ.iterations))) = _
    rw [if_neg h]

/-- Witness for C1: for a concrete 1×1 state whose only cell stays active,
the accumulated time after one step is `(1/2 · 2) / 4 = 1/4`. -/
theorem C1_witness :
    (stepSim (2 : ℚ) (initialState ℚ 1 1) drawsW).time_mtx 0 0 = 1 / 4 := by
  have h := (C1_mask_then_gate_time_update (2 : ℚ) (initialState ℚ 1 1) drawsW 0 0).2.2.1
    (by decide)
  rw [h]
  norm_num [distance_mtx, v_mtx, drawsW, initialState]

/-- C4: `run(threshold)` executes its per-iteration update exactly while
`active_cell_ratio ≥ threshold`: whenever `run` returns, the ratio is
below the threshold, and if the ratio is already below the threshold at
the call, no iteration is executed and the state is returned unchanged. -/
theorem C4_run_runs_until_converged (md : α) (draws : ℕ → IterDraws α ny nx) (th : α)
    (fuel : ℕ) (σ : SimState α ny nx) :
    (∀ σ', runSim md draws th fuel σ = some σ' → active_cell_ratio σ' < th) ∧
    (active_cell_ratio σ < th → runSim md draws th fuel σ = some σ) := by
  constructor
  · induction fuel generalizing σ with
    | zero =>
      intro σ' h
      unfold runSim at h
      by_cases hc : is_converged σ th
      · rw [if_pos hc] at h
        cases h
        exact hc
      · rw [if_neg hc] at h
        cases h
    | succ n ih =>
      intro σ' h
      unfold runSim at h
      by_cases hc : is_converged σ th
      · rw [if_pos hc] at h
        cases h
        exact hc
      · rw [if_neg hc] at h
        exact ih _ _ h
  · intro h
    cases fuel with
    | zero => unfold runSim; rw [if_pos (show is_converged σ th from h)]
    | succ n => unfold runSim; rw [if_pos (show is_converged σ th from h)]

/-- Witness for C4: a run started below the threshold returns its input
state unchanged without executing an iteration. -/
theorem C4_witness : runSim (2 : ℚ) (fun _ => drawsW) (1 / 2) 5 σConv = some σConv :=
  (C4_run_runs_until_converged (2 : ℚ) (fun _ => drawsW) (1 / 2) 5 σConv).2
    (by norm_num [active_cell_ratio, countActive, σConv])

/-- C3: along any run (a trace of `run`-loop iterations from the state
installed at engine construction, with non-negative sampled speeds and
uniform distance factors), the per-cell state is monotonically
non-increasing over iterations (`true → false` is one-way, a cell never
reactivates) and the per-cell time is non-negative and non-decreasing; at
construction `state_mtx` is all `true` (`active_cell_ratio = 1`),
`time_mtx` is all zero, and `iterations = 0`. -/
theorem C3_state_time_invariants (md : α) (draws : ℕ → IterDraws α ny nx)
    (hny : 0 < ny) (hnx : 0 < nx) (hmd : 0 ≤ md)
    (hrd : ∀ n (i : Fin ny) (j : Fin nx), 0 ≤ (draws n).randDist i j)
    (hva : ∀ n (i : Fin ny) (j : Fin nx), 0 ≤ (draws n).vActive i j)
    (hvp : ∀ n (i : Fin ny) (j : Fin nx), 0 ≤ (draws n).vPassive i j) :
    ((initialState α ny nx).state_mtx = fun _ _ => true) ∧
    ((initialState α ny nx).time_mtx = fun _ _ => (0 : α)) ∧
    (initialState α ny nx).iterations = 0 ∧
    active_cell_ratio (initialState α ny nx) = 1 ∧
    (∀ m n, m ≤ n → ∀ (i : Fin ny) (j : Fin nx),
      (simTrace md draws (initialState α ny nx) n).state_mtx i j = true →
        (simTrace md draws (initialState α ny nx) m).state_mtx i j = true) ∧
    (∀ n (i : Fin ny) (j : Fin nx),
      0 ≤ (simTrace md draws (initialState α ny nx) n).time_mtx i j) ∧
    (∀ m n, m ≤ n → ∀ (i : Fin ny) (j : Fin nx),
      (simTrace md draws (initialState α ny nx) m).time_mtx i j ≤
        (simTrace md draws (initialState α ny nx) n).time_mtx i j) := by
  have hstate : ∀ (σ : SimState α ny nx) (d : IterDraws α ny nx) (i : Fin ny) (j : Fin nx),
      (stepSim md σ d).state_mtx i j = true → σ.state_mtx i j = true := by
    intro σ d i j h
    have h' : (σ.state_mtx i j && d.mixture i j) = true := h
    exact (Bool.and_eq_true _ _ |>.mp h').1
  have hinc : ∀ (σ : SimState α ny nx) (n : ℕ) (i : Fin ny) (j : Fin nx),
      σ.time_mtx i j ≤ (stepSim md σ (draws n)).time_mtx i j := by
    intro σ n i j
    have hd : 0 ≤ distance_mtx md (draws n) i j := mul_nonneg (hrd n i j) hmd
    have hv : 0 ≤ v_mtx (draws n) i j := by
      unfold v_mtx
      split
      · exact hva n i j
      · exact hvp n i j
    have hb : 0 ≤ boolToNum α ((stepSim md σ (draws n)).state_mtx i j) := by
      unfold boolToNum
      split
      · exact zero_le_one
      · exact le_refl 0
    have : 0 ≤ distance_mtx md (draws n) i j / v_mtx (draws n) i j *
        boolToNum α ((stepSim md σ (draws n)).state_mtx i j) :=
      mul_nonneg (div_nonneg hd hv) hb
    exact le_add_of_nonneg_right this
  refine ⟨rfl, rfl, rfl, ?_, ?_, ?_, ?_⟩
  · unfold active_cell_ratio countActive initialState
    simp only [Finset.filter_True]
    rw [Finset.card_univ]
    simp only [Fintype.card_prod, Fintype.card_fin]
    push_cast
    rw [mul_comm]
    exact div_self (by positivity)
  · intro m n hmn i j
    induction hmn with
    | refl => exact fun h => h
    | step h ih =>
      intro hs
      exact ih (hstate _ _ i j hs)
  · intro n i j
    induction n with
    | zero => exact le_refl 0
    | succ k ih => exact le_trans ih (hinc _ k i j)
  · intro m n hmn i j
    induction hmn with
    | refl => exact le_refl _
    | step h ih => exact le_trans ih (hinc _ _ i j)

/-- Witness for C3: at a concrete 1×1 engine with concrete draws, the
freshly constructed state has `active_cell_ratio = 1`. -/
theorem C3_witness : active_cell_ratio (initialState ℚ 1 1) = 1 :=
  (C3_state_time_invariants (2 : ℚ) (fun _ => drawsW) (by decide) (by decide)
    (by norm_num)
    (fun _ _ _ => by norm_num [drawsW])
    (fun _ _ _ => by norm_num [drawsW])
    (fun _ _ _ => by norm_num [drawsW])).2.2.2.1

/-- C2: each cell's mixture draw is an independent Bernoulli with
`P(active-exposed) = concentration` — over the `n` equally likely uniform
outcomes `k/n`, exactly `a` produce an active-exposed cell when the
concentration is `a/n`; a still-active cell that is active-exposed becomes
inactive in the step; and with `concentration = 1` every cell is
active-exposed (for any non-negative uniforms), so one iteration drives
`active_cell_ratio` to `0`, which is below any threshold `> 0`. -/
theorem C2_bernoulli_exposure_and_collapse (md : α) :
    (∀ (nn a : ℕ), 0 < nn → a ≤ nn →
      ((Finset.univ : Finset (Fin nn)).filter
        (fun k : Fin nn => mixture_cell ((a : α) / (nn : α)) ((k : α) / (nn : α)) = false)).card = a) ∧
    (∀ (σ : SimState α ny nx) (d : IterDraws α ny nx) (i : Fin ny) (j : Fin nx),
      σ.state_mtx i j = true → d.mixture i j = false →
        (stepSim md σ d).state_mtx i j = false) ∧
    (∀ u : α, 0 ≤ u → mixture_cell (1 : α) u = false) ∧
    (∀ (σ : SimState α ny nx) (d : IterDraws α ny nx) (us : Fin ny → Fin nx → α),
      (∀ i j, 0 ≤ us i j) → d.mixture = get_mixture_mtx (1 : α) us →
        active_cell_ratio (stepSim md σ d) = 0 ∧
        ∀ th : α, 0 < th → is_converged (stepSim md σ d) th) := by
  have hone : ∀ u : α, 0 ≤ u → mixture_cell (1 : α) u = false := by
    intro u hu
    have h : ¬ (u < 1 - 1) := by
      rw [sub_self]
      exact not_lt.mpr hu
    exact decide_eq_false h
  refine ⟨?_, ?_, hone, ?_⟩
  · intro nn a hnn ha
    have key : ∀ m : ℕ, m ≤ nn →
        ((Finset.univ : Finset (Fin nn)).filter (fun k : Fin nn => m ≤ (k : ℕ))).card = nn - m := by
      intro m hm
      rcases lt_or_eq_of_le hm with hlt | hEq
      · have hset : (Finset.univ : Finset (Fin nn)).filter (fun k : Fin nn => m ≤ (k : ℕ)) =
            Finset.Ici (⟨m, hlt⟩ : Fin nn) := by
          ext k
          simp [Fin.le_def]
        rw [hset, Fin.card_Ici]
      · subst hEq
        have hset : (Finset.univ : Finset (Fin m)).filter (fun k : Fin m => m ≤ (k : ℕ)) = ∅ := by
          ext k
          simp only [Finset.mem_filter, Finset.mem_univ, true_and, Finset.not_mem_empty,
            iff_false]
          exact not_le.mpr k.isLt
        rw [hset, Finset.card_empty, Nat.sub_self]
    have hpred : ∀ k : Fin nn,
        (mixture_cell ((a : α) / (nn : α)) ((k : α) / (nn : α)) = false) ↔
          (nn - a ≤ (k : ℕ)) := by
      intro k
      have hnn' : (0 : α) < (nn : α) := by exact_mod_cast hnn
      unfold mixture_cell
      rw [decide_eq_false_iff_not, not_lt]
      constructor
      · intro h
        have h1 : ((nn - a : ℕ) : α) / (nn : α) ≤ (k : α) / (nn : α) := by
          rw [Nat.cast_sub ha, sub_div, div_self (ne_of_gt hnn')]
          exact h
        have h2 : ((nn - a : ℕ) : α) ≤ (k : α) :=
          (div_le_div_iff_of_pos_right hnn').mp h1
        exact_mod_cast h2
      · intro h
        have h2 : ((nn - a : ℕ) : α) ≤ (k : α) := by exact_mod_cast h
        have h1 : ((nn - a : ℕ) : α) / (nn : α) ≤ (k : α) / (nn : α) :=
          (div_le_div_iff_of_pos_right hnn').mpr h2
        rw [Nat.cast_sub ha, sub_div, div_self (ne_of_gt hnn')] at h1
        exact h1
    calc ((Finset.univ : Finset (Fin nn)).filter
          (fun k : Fin nn => mixture_cell ((a : α) / (nn : α)) ((k : α) / (nn : α)) = false)).card
        = ((Finset.univ : Finset (Fin nn)).filter (fun k : Fin nn => nn - a ≤ (k : ℕ))).card := by
          congr 1
          exact Finset.filter_congr fun k _ => by rw [hpred k]
      _ = nn - (nn - a) := key (nn - a) (Nat.sub_le nn a)
      _ = a := Nat.sub_sub_self ha
  · intro σ d i j _ hmix
    show (σ.state_mtx i j && d.mixture i j) = false
    rw [hmix, Bool.and_false]
  · intro σ d us hus hmix
    have hall : ∀ (i : Fin ny) (j : Fin nx), (stepSim md σ d).state_mtx i j = false := by
      intro i j
      show (σ.state_mtx i j && d.mixture i j) = false
      rw [hmix]
      show (σ.state_mtx i j && mixture_cell 1 (us i j)) = false
      rw [hone (us i j) (hus i j), Bool.and_false]
    have hcount : countActive (stepSim md σ d).state_mtx = 0 := by
      unfold countActive
      rw [Finset.card_eq_zero]
      ext c
      simp [hall]
    constructor
    · unfold active_cell_ratio
      rw [hcount]
      simp
    · intro th hth
      show active_cell_ratio (stepSim md σ d) < th
      unfold active_cell_ratio
      rw [hcount]
      simpa using hth

/-- Witness for C2: at concentration `1/2` over the two equally likely
uniforms `0/2` and `1/2`, exactly one outcome is active-exposed. -/
theorem C2_witness :
    ((Finset.univ : Finset (Fin 2)).filter
      (fun k : Fin 2 => mixture_cell ((1 : ℚ) / 2) ((k : ℚ) / 2) = false)).card = 1 := by
  have h := (@C2_bernoulli_exposure_and_collapse ℚ _ 1 1 2).1 2 1
    (by decide) (by decide)
  exact_mod_cast h

/-- C5: `GasSensorSimulation` construction raises the active-gas-shortage
error if and only if `active_gas_quantity / carriers_quantity < 1`; when
the check does not fire, construction completes with the initial state
installed (all cells active, zero times) and `iterations = 0`, i.e. before
any iteration has run. -/
theorem C5_active_gas_shortage_check (env : Environment) (fiber : NanoFiber) :
    (initGasSensorSimulation env fiber = Except.error shortageMessage ↔
      env.active_gas_quantity / fiber.carriers_quantity < 1) ∧
    (initGasSensorSimulation env fiber = Except.ok (initialState ℝ fiber.n_y fiber.n_x) ↔
      ¬ (env.active_gas_quantity / fiber.carriers_quantity < 1)) ∧
    (∀ σ', initGasSensorSimulation env fiber = Except.ok σ' →
      σ'.iterations = 0 ∧ (σ'.state_mtx = fun _ _ => true) ∧
        σ'.time_mtx = fun _ _ => (0 : ℝ)) := by
  unfold initGasSensorSimulation
  by_cases h : env.active_gas_quantity / fiber.carriers_quantity < 1
  · rw [if_pos h]
    refine ⟨⟨fun _ => h, fun _ => rfl⟩, ⟨fun hc => Except.noConfusion hc, fun hc => absurd h hc⟩,
      fun σ' hσ => Except.noConfusion hσ⟩
  · rw [if_neg h]
    refine ⟨⟨fun hc => Except.noConfusion hc, fun hc => absurd hc h⟩, ⟨fun _ => h, fun _ => rfl⟩,
      fun σ' hσ => ?_⟩
    cases hσ
    exact ⟨rfl, rfl, rfl⟩

/-- Witness for C5: for a concrete environment with `active_gas_quantity
= 5` and a concrete fiber with `carriers_quantity = 1`, the check does not
fire and construction completes with the initial state. -/
theorem C5_witness :
    initGasSensorSimulation envW fiberW = Except.ok (initialState ℝ 1 1) :=
  (C5_active_gas_shortage_check envW fiberW).2.1.mpr (by norm_num [envW, fiberW])

/-! Positivity of the source's numeric constants. -/

theorem K_B_pos : (0 : ℝ) < K_B := by norm_num [K_B]

theorem NA_pos : (0 : ℝ) < NA := by norm_num [NA]

theorem R_const_pos : (0 : ℝ) < R_const := by norm_num [R_const]

/-! Helper lemmas about the constructor arithmetic: for a material with
positive density and molweight, the diameter and the surface carrier
density computations succeed (no `ZeroDivisionError`) and are positive. -/

theorem get_molecular_diameter_pos (density molweight : ℝ) (hd : 0 < density)
    (hm : 0 < molweight) :
    ∃ d, get_molecular_diameter density molweight = some d ∧ 0 < d := by
  have h1 : molweight ≠ 0 := ne_of_gt hm
  have hnp : (0 : ℝ) < density / molweight * NA := mul_pos (div_pos hd hm) NA_pos
  have h2 : density / molweight * NA ≠ 0 := ne_of_gt hnp
  refine ⟨((6 * (1 / (density / molweight * NA))) / Real.pi) ^ ((1 : ℝ) / 3), ?_, ?_⟩
  · unfold get_molecular_diameter pyDiv
    rw [if_neg h1, Option.some_bind, if_neg h2, Option.map_some']
  · have hbase : (0 : ℝ) < (6 * (1 / (density / molweight * NA))) / Real.pi := by
      have := Real.pi_pos
      positivity
    exact Real.rpow_pos_of_pos hbase _

theorem get_surface_carrier_density_pos (material : Material) (hd : 0 < material.density)
    (hm : 0 < material.molweight) :
    ∃ s, get_surface_carrier_density material = some s ∧ 0 < s := by
  obtain ⟨d, hdz, hdpos⟩ := get_molecular_diameter_pos material.density material.molweight hd hm
  have harea : (0 : ℝ) < Real.pi * d ^ 2 / 4 := by
    have := Real.pi_pos
    positivity
  refine ⟨1 / (Real.pi * d ^ 2 / 4), ?_, by positivity⟩
  unfold get_surface_carrier_density pyDiv
  rw [hdz, Option.some_bind, if_neg (ne_of_gt harea)]

/-- Counterexample for C6: at inputs where the source genuinely completes
(positive gas properties, nonzero temperature, a 2×3 grid), construction
does not fail on out-of-range values — with `concentration = 2` (outside
`[0,1]`) an `Environment` object is produced, and with negative width and
length a `NanoFiber` object is produced; no error of any kind is raised. -/
theorem C6_counterexample :
    (∃ env, mkEnvironment 300 101325 1 2 1 matW matW = some env ∧
      env.concentration = 2) ∧
    (∃ fiber, mkNanoFiber (-1) (-1) 2 3 matW = some fiber ∧
      fiber.width = -1 ∧ fiber.length = -1) := by
  have hdm : (0 : ℝ) < matW.density := by norm_num [matW]
  have hmm : (0 : ℝ) < matW.molweight := by norm_num [matW]
  constructor
  · obtain ⟨d, hd, -⟩ := get_molecular_diameter_pos matW.density matW.molweight hdm hmm
    have hq : get_passive_gas_quantity 101325 300 1 =
        some (NA * 101325 * 1 / (R_const * 300)) := by
      unfold get_passive_gas_quantity pyDiv
      rw [if_neg (by norm_num [R_const])]
    refine ⟨{ concentration := 2, temperature := 300, pressure := 101325,
              max_distance := 1, active_gas := matW, passive_gas := matW,
              active_gas_molweight := matW.molweight,
              passive_gas_molweight := matW.molweight,
              active_gas_diameter := d, passive_gas_diameter := d,
              container_volume := 1,
              passive_gas_quantity := NA * 101325 * 1 / (R_const * 300),
              active_gas_quantity := NA * 101325 * 1 / (R_const * 300) * 2 }, ?_, rfl⟩
    unfold mkEnvironment
    rw [hd, Option.some_bind, Option.some_bind, hq, Option.map_some']
  · obtain ⟨s, hs, -⟩ := get_surface_carrier_density_pos matW hdm hmm
    have hcc : get_cell_carriers (-1) (-1) s 3 2 =
        some (⌊s * ((-1) * (-1)) / (((2 : ℕ) : ℝ) * ((3 : ℕ) : ℝ))⌋ : ℝ) := by
      unfold get_cell_carriers pyFloorDiv
      rw [if_neg (by norm_num)]
    refine ⟨{ width := -1, length := -1, n_x := 2, n_y := 3, material := matW,
              surface_carrier_density := s,
              cell_carriers :=
                (⌊s * ((-1) * (-1)) / (((2 : ℕ) : ℝ) * ((3 : ℕ) : ℝ))⌋ : ℝ),
              carriers_quantity := (-1) * (-1) * s }, ?_, rfl, rfl⟩
    unfold mkNanoFiber
    rw [hs, Option.some_bind, hcc, Option.map_some']

/-- C6 (amended): `Environment.__init__` and `NanoFiber.__init__` perform
no range or positivity validation and have no `InvalidConfiguration`
error path: whenever the derived-quantity divisions have nonzero
denominators (the only failure mode, a `ZeroDivisionError`), construction
succeeds — for any concentration, including values outside `[0,1]`, and
any signs of the physical quantities — and produces an object storing the
inputs with the derived quantities following the source formulas. -/
theorem C6_no_range_validation
    (temperature pressure container_volume concentration max_distance : ℝ)
    (active_gas passive_gas : Material) (width length : ℝ) (n_x n_y : ℕ)
    (material : Material) :
    ((∃ da, get_molecular_diameter active_gas.density active_gas.molweight = some da) →
     (∃ dp, get_molecular_diameter passive_gas.density passive_gas.molweight = some dp) →
     temperature ≠ 0 →
      ∃ env, mkEnvironment temperature pressure container_volume concentration
          max_distance active_gas passive_gas = some env ∧
        env.concentration = concentration ∧ env.temperature = temperature ∧
        env.pressure = pressure ∧ env.container_volume = container_volume ∧
        env.max_distance = max_distance ∧
        env.passive_gas_quantity =
          NA * pressure * container_volume / (R_const * temperature) ∧
        env.active_gas_quantity =
          NA * pressure * container_volume / (R_const * temperature) * concentration) ∧
    (∀ s, get_surface_carrier_density material = some s →
      (n_x : ℝ) * (n_y : ℝ) ≠ 0 →
      ∃ fiber, mkNanoFiber width length n_x n_y material = some fiber ∧
        fiber.width = width ∧ fiber.length = length ∧
        fiber.n_x = n_x ∧ fiber.n_y = n_y ∧
        fiber.surface_carrier_density = s ∧
        fiber.cell_carriers =
          (⌊s * (width * length) / ((n_x : ℝ) * (n_y : ℝ))⌋ : ℝ) ∧
        fiber.carriers_quantity = width * length * s) := by
  constructor
  · rintro ⟨da, hda⟩ ⟨dp, hdp⟩ hT
    have hden : R_const * temperature ≠ 0 := mul_ne_zero (ne_of_gt R_const_pos) hT
    refine ⟨{ concentration := concentration, temperature := temperature,
              pressure := pressure, max_distance := max_distance,
              active_gas := active_gas, passive_gas := passive_gas,
              active_gas_molweight := active_gas.molweight,
              passive_gas_molweight := passive_gas.molweight,
              active_gas_diameter := da, passive_gas_diameter := dp,
              container_volume := container_volume,
              passive_gas_quantity :=
                NA * pressure * container_volume / (R_const * temperature),
              active_gas_quantity :=
                NA * pressure * container_volume / (R_const * temperature) *
                  concentration },
      ?_, rfl, rfl, rfl, rfl, rfl, rfl, rfl⟩
    unfold mkEnvironment
    rw [hda, Option.some_bind, hdp, Option.some_bind]
    unfold get_passive_gas_quantity pyDiv
    rw [if_neg hden, Option.map_some']
  · intro s hs hgrid
    refine ⟨{ width := width, length := length, n_x := n_x, n_y := n_y,
              material := material, surface_carrier_density := s,
              cell_carriers :=
                (⌊s * (width * length) / ((n_x : ℝ) * (n_y : ℝ))⌋ : ℝ),
              carriers_quantity := width * length * s },
      ?_, rfl, rfl, rfl, rfl, rfl, rfl, rfl⟩
    unfold mkNanoFiber
    rw [hs, Option.some_bind]
    unfold get_cell_carriers pyFloorDiv
    rw [if_neg hgrid, Option.map_some']

/-- Witness for C6 (amended): at a concrete material with positive
properties, nonzero temperature and out-of-range concentration `5`,
`Environment` construction succeeds and stores the inputs. -/
theorem C6_witness :
    ∃ env, mkEnvironment 300 101325 1 5 1 matW matW = some env ∧
      env.concentration = 5 ∧ env.temperature = 300 ∧
      env.pressure = 101325 ∧ env.container_volume = 1 ∧
      env.max_distance = 1 ∧
      env.passive_gas_quantity = NA * 101325 * 1 / (R_const * 300) ∧
      env.active_gas_quantity = NA * 101325 * 1 / (R_const * 300) * 5 := by
  obtain ⟨d, hd, -⟩ := get_molecular_diameter_pos matW.density matW.molweight
    (by norm_num [matW]) (by norm_num [matW])
  exact (C6_no_range_validation 300 101325 1 5 1 matW matW (-1) (-1) 2 3 matW).1
    ⟨d, hd⟩ ⟨d, hd⟩ (by norm_num)

/-- C7: `get_time_current_array` returns one pair per distinct value of
`time_mtx`, with the times strictly ascending; at each listed time `t` the
current equals `(total_cells − active_count(t)) · Q_E · cell_carriers`,
where `active_count(t)` counts the cells with `time_mtx > t` OR an active
`state_mtx` entry. -/
theorem C7_time_current_array (cc : α) (time : Fin ny → Fin nx → α)
    (state : Fin ny → Fin nx → Bool) :
    ((get_time_current_array cc time state).map Prod.fst = distinctTimes time) ∧
    List.Sorted (· < ·) ((get_time_current_array cc time state).map Prod.fst) ∧
    (∀ t : α, t ∈ (get_time_current_array cc time state).map Prod.fst ↔
      ∃ (i : Fin ny) (j : Fin nx), time i j = t) ∧
    (∀ p ∈ get_time_current_array cc time state,
      p.2 = (((ny : α) * (nx : α)) -
          ((Finset.univ.filter (fun c : Fin ny × Fin nx =>
            p.1 < time c.1 c.2 ∨ state c.1 c.2 = true)).card : α)) * Q_E α * cc) := by
  have hmap : (get_time_current_array cc time state).map Prod.fst = distinctTimes time := by
    unfold get_time_current_array
    rw [List.map_map]
    exact List.map_id _
  have hcount : ∀ t : α, countActive (step_state time state t) =
      (Finset.univ.filter (fun c : Fin ny × Fin nx =>
        t < time c.1 c.2 ∨ state c.1 c.2 = true)).card := by
    intro t
    unfold countActive
    congr 1
    refine Finset.filter_congr fun c _ => ?_
    unfold step_state
    by_cases h : time c.1 c.2 ≤ t
    · rw [if_pos h]
      simp [not_lt.mpr h]
    · rw [if_neg h]
      simp [not_le.mp h]
  refine ⟨hmap, ?_, ?_, ?_⟩
  · rw [hmap]
    exact Finset.sort_sorted_lt _
  · intro t
    rw [hmap]
    unfold distinctTimes
    rw [Finset.mem_sort, Finset.mem_image]
    constructor
    · rintro ⟨c, -, hc⟩
      exact ⟨c.1, c.2, hc⟩
    · rintro ⟨i, j, hij⟩
      exact ⟨(i, j), Finset.mem_univ _, hij⟩
  · intro p hp
    unfold get_time_current_array at hp
    rcases List.mem_map.mp hp with ⟨t, -, rfl⟩
    show get_current_from_state cc (step_state time state t) = _
    unfold get_current_from_state
    rw [hcount t]

/-- Witness for C7: for the concrete 1×1 matrices with recorded time `5`
and an inactive cell, the single listed pair carries the current
`(1 − 0) · Q_E · 2`. -/
theorem C7_witness :
    ((5 : ℚ), get_current_from_state (2 : ℚ) (step_state timeW stateW 5)).2 =
      (((1 : ℚ) * 1) - ((Finset.univ.filter (fun c : Fin 1 × Fin 1 =>
        (5 : ℚ) < timeW c.1 c.2 ∨ stateW c.1 c.2 = true)).card : ℚ)) * Q_E ℚ * 2 := by
  refine (C7_time_current_array (2 : ℚ) timeW stateW).2.2.2
    ((5 : ℚ), get_current_from_state (2 : ℚ) (step_state timeW stateW 5)) ?_
  unfold get_time_current_array
  refine List.mem_map.mpr ⟨5, ?_, rfl⟩
  unfold distinctTimes
  rw [Finset.mem_sort, Finset.mem_image]
  exact ⟨(0, 0), Finset.mem_univ _, rfl⟩

/-- C8: the current estimator's `a` is the engine's `maximum_current`
(`carriers_quantity × 1.6021e-19`, not fitted), its `b` is computed in
closed form from only the last sampled point as
`−(1/t_last)·ln((a − I_last)/a)`, the fitted callable returns
`a·(1 − exp(−b·t))`, and at `I_max = 10` with last sample `(5, 6)` the
value of `b` is exactly `−(1/5)·ln((10 − 6)/10)`. -/
theorem C8_current_estimator_closed_form (fiber : NanoFiber) (tc : List (ℝ × ℝ))
    (tl il : ℝ) (h : tc.getLast? = some (tl, il)) :
    maximum_current fiber = fiber.carriers_quantity * 1.6021e-19 ∧
    (∃ e, mkCurrentEstimator fiber tc = some e ∧
      e.a = maximum_current fiber ∧
      e.b = (-1 / tl) * Real.log ((maximum_current fiber - il) / maximum_current fiber) ∧
      ∀ t, currentEstimatorApply e t = e.a * (1 - Real.exp (-e.b * t))) ∧
    calculate_b 10 [(5, 6)] = some ((-1 / 5) * Real.log ((10 - 6) / 10)) := by
  refine ⟨rfl, ?_, ?_⟩
  · refine ⟨⟨maximum_current fiber,
      (-1 / tl) * Real.log ((maximum_current fiber - il) / maximum_current fiber)⟩,
      ?_, rfl, rfl, fun t => rfl⟩
    unfold mkCurrentEstimator calculate_b
    rw [h]
    rfl
  · unfold calculate_b
    rfl

/-- Witness for C8: at the concrete fiber and the one-point array
`[(5, 6)]`, the estimator exists and its `b` is the closed-form value at
the last (only) point. -/
theorem C8_witness :
    ∃ e, mkCurrentEstimator fiberW [(5, 6)] = some e ∧
      e.a = maximum_current fiberW ∧
      e.b = (-1 / 5) * Real.log ((maximum_current fiberW - 6) / maximum_current fiberW) ∧
      ∀ t, currentEstimatorApply e t = e.a * (1 - Real.exp (-e.b * t)) :=
  (C8_current_estimator_closed_form fiberW [(5, 6)] 5 6 rfl).2.1

/-! ## Helper lemmas for the velocity-distribution table -/

theorem mb_density_nonneg (v temperature m : ℝ) (hT : 0 < temperature) (hm : 0 < m) :
    0 ≤ get_maxwell_boltzmann_velocity_distribution v temperature m := by
  unfold get_maxwell_boltzmann_velocity_distribution
  have hden : (0 : ℝ) < 2 * Real.pi * K_B * temperature :=
    mul_pos (mul_pos (mul_pos two_pos Real.pi_pos) K_B_pos) hT
  have h1 : (0 : ℝ) ≤ 4 * Real.pi * v ^ 2 := by positivity
  have h2 : (0 : ℝ) ≤ (m / (2 * Real.pi * K_B * temperature)) ^ (1.5 : ℝ) :=
    Real.rpow_nonneg (div_nonneg hm.le hden.le) _
  exact mul_nonneg (mul_nonneg h1 h2) (Real.exp_pos _).le

theorem mb_density_pos (v temperature m : ℝ) (hv : 0 < v) (hT : 0 < temperature)
    (hm : 0 < m) : 0 < get_maxwell_boltzmann_velocity_distribution v temperature m := by
  unfold get_maxwell_boltzmann_velocity_distribution
  have hden : (0 : ℝ) < 2 * Real.pi * K_B * temperature :=
    mul_pos (mul_pos (mul_pos two_pos Real.pi_pos) K_B_pos) hT
  have h1 : (0 : ℝ) < 4 * Real.pi * v ^ 2 := by positivity
  have h2 : (0 : ℝ) < (m / (2 * Real.pi * K_B * temperature)) ^ (1.5 : ℝ) :=
    Real.rpow_pos_of_pos (div_pos hm hden) _
  exact mul_pos (mul_pos h1 h2) (Real.exp_pos _)

theorem mean_speed_pos (temperature molar_mass : ℝ) (hT : 0 < temperature)
    (hM : 0 < molar_mass) : 0 < mean_speed temperature molar_mass :=
  Real.sqrt_pos.mpr (div_pos (by
    have := R_const_pos
    positivity) hM)

theorem dist_density_nonneg (temperature molar_mass : ℝ) (hT : 0 < temperature)
    (hM : 0 < molar_mass) (i : Fin 100) : 0 ≤ dist_density temperature molar_mass i :=
  mb_density_nonneg _ _ _ hT (div_pos hM NA_pos)

theorem dist_density_sum_pos (temperature molar_mass : ℝ) (hT : 0 < temperature)
    (hM : 0 < molar_mass) : 0 < ∑ j, dist_density temperature molar_mass j := by
  refine Finset.sum_pos' (fun i _ => dist_density_nonneg _ _ hT hM i)
    ⟨⟨1, by norm_num⟩, Finset.mem_univ _, ?_⟩
  apply mb_density_pos _ _ _ _ hT (div_pos hM NA_pos)
  unfold dist_speed
  have hm := mean_speed_pos temperature molar_mass hT hM
  have h3 : (0 : ℝ) < 3 * mean_speed temperature molar_mass := by linarith
  have h1 : (0 : ℝ) < ((⟨1, by norm_num⟩ : Fin 100) : ℝ) := by norm_num
  exact div_pos (mul_pos h1 h3) (by norm_num)

theorem dist_weight_zero_index (temperature molar_mass : ℝ) :
    dist_weight temperature molar_mass ⟨0, by norm_num⟩ = 0 := by
  unfold dist_weight
  have hd : dist_density temperature molar_mass ⟨0, by norm_num⟩ = 0 := by
    unfold dist_density
    have hs : dist_speed temperature molar_mass ⟨0, by norm_num⟩ = 0 := by
      unfold dist_speed
      show ((0 : ℕ) : ℝ) * _ / 99 = 0
      norm_num
    rw [hs]
    unfold get_maxwell_boltzmann_velocity_distribution
    norm_num
  rw [hd, mul_zero]

theorem choice_from_table_pos (temperature molar_mass : ℝ) (hT : 0 < temperature)
    (hM : 0 < molar_mass) (u : ℝ) (i : Fin 100) (hu : 0 ≤ u)
    (hsel : choiceSelects (dist_weight temperature molar_mass) u i) :
    0 < dist_speed temperature molar_mass i := by
  have hne : (i : ℕ) ≠ 0 := by
    intro h0
    have hi : i = ⟨0, by norm_num⟩ := Fin.ext h0
    subst hi
    have hfilter : Finset.univ.filter (fun j : Fin 100 => j ≤ ⟨0, by norm_num⟩) =
        {(⟨0, by norm_num⟩ : Fin 100)} := by
      ext j
      simp [Fin.le_def, Nat.le_zero, Fin.ext_iff]
    have h2 := hsel.2
    rw [hfilter, Finset.sum_singleton, dist_weight_zero_index temperature molar_mass] at h2
    exact absurd (lt_of_le_of_lt hu h2) (lt_irrefl 0)
  have hpos : (0 : ℝ) < (i : ℝ) := by
    have h := Nat.pos_of_ne_zero hne
    exact_mod_cast h
  unfold dist_speed
  have hm := mean_speed_pos temperature molar_mass hT hM
  exact div_pos (mul_pos hpos (by linarith)) (by norm_num)

/-- C9: for every positive temperature and molar mass, the sampling table
consists of 100 evenly spaced speed samples from `0` to
`3·sqrt(2·R·T/M)`, paired with the Maxwell-Boltzmann density evaluated at
each sample and normalized, so that the weights are non-negative and sum
to 1. -/
theorem C9_velocity_distribution_table (temperature molar_mass : ℝ)
    (hT : 0 < temperature) (hM : 0 < molar_mass) :
    dist_speed temperature molar_mass ⟨0, by norm_num⟩ = 0 ∧
    dist_speed temperature molar_mass ⟨99, by norm_num⟩ =
      3 * Real.sqrt ((2 * R_const * temperature) / molar_mass) ∧
    (∀ i j : Fin 100, dist_speed temperature molar_mass j -
        dist_speed temperature molar_mass i =
      ((j : ℝ) - (i : ℝ)) *
        (3 * Real.sqrt ((2 * R_const * temperature) / molar_mass) / 99)) ∧
    (∀ i, dist_weight temperature molar_mass i =
      dist_density temperature molar_mass i / ∑ j, dist_density temperature molar_mass j) ∧
    (∀ i, 0 ≤ dist_weight temperature molar_mass i) ∧
    ∑ i, dist_weight temperature molar_mass i = 1 := by
  have hS := dist_density_sum_pos temperature molar_mass hT hM
  refine ⟨?_, ?_, ?_, ?_, ?_, ?_⟩
  · unfold dist_speed
    show ((0 : ℕ) : ℝ) * _ / 99 = 0
    norm_num
  · unfold dist_speed mean_speed
    show ((99 : ℕ) : ℝ) * _ / 99 = _
    push_cast
    ring
  · intro i j
    unfold dist_speed mean_speed
    ring
  · intro i
    unfold dist_weight
    rw [one_div, inv_mul_eq_div]
  · intro i
    exact mul_nonneg (one_div_nonneg.mpr hS.le) (dist_density_nonneg _ _ hT hM i)
  · unfold dist_weight
    rw [← Finset.mul_sum, one_div, inv_mul_cancel₀ (ne_of_gt hS)]

/-- Witness for C9: at temperature 1 and molar mass 1, the first sampled
speed is 0. -/
theorem C9_witness : dist_speed 1 1 ⟨0, by norm_num⟩ = 0 :=
  (C9_velocity_distribution_table 1 1 (by norm_num) (by norm_num)).1

/-- C10: the weight assigned to the single zero-speed sample (the first
linspace point) is exactly 0 because the density carries the factor
`4π v²`; hence every speed drawn by the table's selection rule is strictly
positive, the per-cell division `distance_mtx / v_mtx` in
`update_time_mtx` never divides by zero, and every `time_mtx` increment
is non-negative (so the updated entry is at least the old one). -/
theorem C10_zero_weight_no_div_by_zero (md temperature molar_active molar_passive : ℝ)
    (hT : 0 < temperature) (hMa : 0 < molar_active) (hMp : 0 < molar_passive) :
    dist_speed temperature molar_active ⟨0, by norm_num⟩ = 0 ∧
    dist_weight temperature molar_active ⟨0, by norm_num⟩ = 0 ∧
    (∀ (u : ℝ) (i : Fin 100), 0 ≤ u →
      choiceSelects (dist_weight temperature molar_active) u i →
        0 < dist_speed temperature molar_active i) ∧
    (∀ (σ : SimState ℝ ny nx) (d : IterDraws ℝ ny nx) (i : Fin ny) (j : Fin nx),
      (∃ u k, 0 ≤ u ∧ choiceSelects (dist_weight temperature molar_active) u k ∧
        d.vActive i j = dist_speed temperature molar_active k) →
      (∃ u k, 0 ≤ u ∧ choiceSelects (dist_weight temperature molar_passive) u k ∧
        d.vPassive i j = dist_speed temperature molar_passive k) →
      0 ≤ d.randDist i j → 0 ≤ md →
        v_mtx d i j ≠ 0 ∧
        0 ≤ distance_mtx md d i j / v_mtx d i j ∧
        σ.time_mtx i j ≤ (stepSim md σ d).time_mtx i j) := by
  refine ⟨?_, dist_weight_zero_index temperature molar_active, ?_, ?_⟩
  · unfold dist_speed
    show ((0 : ℕ) : ℝ) * _ / 99 = 0
    norm_num
  · exact fun u i hu hsel => choice_from_table_pos temperature molar_active hT hMa u i hu hsel
  · intro σ d i j ha hp hrd hmd
    obtain ⟨ua, ka, hua, hsa, hva⟩ := ha
    obtain ⟨up, kp, hup, hsp, hvp⟩ := hp
    have hvapos : 0 < d.vActive i j := by
      rw [hva]
      exact choice_from_table_pos temperature molar_active hT hMa ua ka hua hsa
    have hvppos : 0 < d.vPassive i j := by
      rw [hvp]
      exact choice_from_table_pos temperature molar_passive hT hMp up kp hup hsp
    have hvpos : 0 < v_mtx d i j := by
      unfold v_mtx
      split
      · exact hvapos
      · exact hvppos
    have hdist : 0 ≤ distance_mtx md d i j := mul_nonneg hrd hmd
    have hdiv : 0 ≤ distance_mtx md d i j / v_mtx d i j := div_nonneg hdist hvpos.le
    refine ⟨ne_of_gt hvpos, hdiv, ?_⟩
    have hb : 0 ≤ boolToNum ℝ ((stepSim md σ d).state_mtx i j) := by
      unfold boolToNum
      split
      · exact zero_le_one
      · exact le_refl 0
    exact le_add_of_nonneg_right (mul_nonneg hdiv hb)

/-- Witness for C10: at temperature 1 and molar masses 1, the zero-speed
sample carries weight exactly 0. -/
theorem C10_witness : dist_weight 1 1 ⟨0, by norm_num⟩ = 0 :=
  (@C10_zero_weight_no_div_by_zero 1 1 1 1 1 1 (by norm_num) (by norm_num)
    (by norm_num)).2.1

end Carlo
